import Mathlib

/-!
Verification of the image-compositing pipeline in
`create_christmas_linkedin_post.py`.

Shallow embedding conventions:
* Pixel channel values, pixel coordinates and sizes are natural numbers.
* Python float arithmetic (the scale factors, the `0.15` logo ratio,
  the `0.12` band ratio, `numpy` channel means, the gradient
  interpolation weights) is modelled exactly over the rationals; the
  truncating conversion `int(...)` is `pyInt`, and an integer mean of
  non-negative values is natural-number division of the channel sum by
  the count.
* Python floor division `//` on possibly-negative integers is
  `Int.fdiv`.
* Library calls whose pixel-level output is irrelevant to the claims
  (LANCZOS resampling, font rasterisation) are not modelled; the claims
  only concern geometry, sizes, modes and fill colors, all of which are
  computed by the script itself and are embedded here from the source.
-/

/-- Python `int(q)`: truncation toward zero. -/
def pyInt (q : ℚ) : ℤ := if q < 0 then -(Int.floor (-q)) else Int.floor q

theorem pyInt_of_nonneg (q : ℚ) (h : 0 ≤ q) : pyInt q = Int.floor q := by
  unfold pyInt
  rw [if_neg (not_lt.2 h)]

/-- A PIL image mode, as far as the pipeline distinguishes them. -/
inductive ImgMode
  | RGB
  | RGBA
  | other
  deriving DecidableEq

/-- The header data of the canvas produced by `Image.new` in
`format_as_linkedin_post`: width, height and mode. -/
structure Canvas where
  width : ℕ
  height : ℕ
  mode : ImgMode
  deriving DecidableEq

/-- `scale = max(linkedin_width / img_width, linkedin_height / img_height)`
from `format_as_linkedin_post` (lines 252-256). -/
def linkedinScale (w h : ℕ) : ℚ := max ((1200 : ℚ) / w) ((627 : ℚ) / h)

/-- `new_width = int(img_width * scale)` (line 259). -/
def resizedWidth (w h : ℕ) : ℤ := pyInt ((w : ℚ) * linkedinScale w h)

/-- `new_height = int(img_height * scale)` (line 260). -/
def resizedHeight (w h : ℕ) : ℤ := pyInt ((h : ℚ) * linkedinScale w h)

/-- `format_as_linkedin_post` (lines 245-271): the output canvas from
`Image.new("RGB", (1200, 627))` together with the centered paste
offsets `paste_x`, `paste_y`.  Pasting never changes the canvas header. -/
def format_as_linkedin_post (w h : ℕ) : Canvas × ℤ × ℤ :=
  (⟨1200, 627, ImgMode.RGB⟩,
   Int.fdiv (1200 - resizedWidth w h) 2,
   Int.fdiv (627 - resizedHeight w h) 2)

/-- The four named corner positions accepted by `add_logo_to_image`. -/
inductive Corner
  | bottom_left
  | bottom_right
  | top_left
  | top_right
  deriving DecidableEq

/-- `logo_width = int(base_width * 0.15)` (line 160). -/
def logoWidth (bw : ℕ) : ℤ := pyInt ((bw : ℚ) * (15 / 100))

/-- `logo_height = int(logo_width * (logo.height / logo.width))`
(line 161). -/
def logoHeight (bw lw lh : ℕ) : ℤ :=
  pyInt ((logoWidth bw : ℚ) * ((lh : ℚ) / (lw : ℚ)))

/-- The bounding box `(x, y, logo_width, logo_height)` returned by
`add_logo_to_image` (lines 158-180) on the success path, as a function
of the base image size, the loaded logo size and the corner position. -/
def add_logo_to_image (bw bh lw lh : ℕ) (pos : Corner) : ℤ × ℤ × ℤ × ℤ :=
  match pos with
  | Corner.bottom_left =>
      (40, (bh : ℤ) - logoHeight bw lw lh - 40, logoWidth bw, logoHeight bw lw lh)
  | Corner.bottom_right =>
      ((bw : ℤ) - logoWidth bw - 40, (bh : ℤ) - logoHeight bw lw lh - 40,
       logoWidth bw, logoHeight bw lw lh)
  | Corner.top_left =>
      (40, 40, logoWidth bw, logoHeight bw lw lh)
  | Corner.top_right =>
      ((bw : ℤ) - logoWidth bw - 40, 40, logoWidth bw, logoHeight bw lw lh)

/-- The two caption position modes exercised by the script, plus a
catch-all for any other string (the code compares against the two
literals and treats everything else like the default branch). -/
inductive TextPos
  | below_logo
  | center_bottom
  | other
  deriving DecidableEq

/-- The caption anchor `(text_x, text_y)` computed by
`add_text_to_image` (lines 204-231), as a function of the image size,
the measured text width and the optional logo box.  The first match is
the initial placement (lines 205-213), the second is the horizontal
adjustment (lines 225-231). -/
def add_text_to_image (width height textWidth : ℕ) (pos : TextPos)
    (logoInfo : Option (ℤ × ℤ × ℤ × ℤ)) : ℤ × ℤ :=
  let p1 : ℤ × ℤ :=
    match pos, logoInfo with
    | TextPos.below_logo, some (x, y, _, lh) => (x, y + lh + 30)
    | _, _ => (Int.fdiv (width : ℤ) 2, (height : ℤ) - 120)
  let tx : ℤ :=
    match pos, logoInfo with
    | TextPos.center_bottom, _ => Int.fdiv ((width : ℤ) - textWidth) 2
    | TextPos.below_logo, some _ =>
        if p1.1 + textWidth > (width : ℤ) - 40 then
          Int.fdiv ((width : ℤ) - textWidth) 2
        else p1.1
    | _, _ => p1.1
  (tx, p1.2)

/-- C1: for every input image of positive width and height, the Canvas
Formatter returns a canvas of exactly 1200 by 627 pixels in RGB mode. -/
theorem format_as_linkedin_post_canvas (w h : ℕ) (hw : 0 < w) (hh : 0 < h) :
    (format_as_linkedin_post w h).1 = ⟨1200, 627, ImgMode.RGB⟩ := rfl

theorem format_as_linkedin_post_canvas_witness :
    0 < 2000 ∧ 0 < 1500 ∧
      (format_as_linkedin_post 2000 1500).1 = ⟨1200, 627, ImgMode.RGB⟩ :=
  ⟨by decide, by decide,
   format_as_linkedin_post_canvas 2000 1500 (by decide) (by decide)⟩

/-- C4: with exact rational arithmetic, the cover-scaled dimensions are
at least the canvas dimensions: `resizedWidth >= 1200` and
`resizedHeight >= 627` for every positive input size. -/
theorem resized_covers_canvas (w h : ℕ) (hw : 0 < w) (hh : 0 < h) :
    1200 ≤ resizedWidth w h ∧ 627 ≤ resizedHeight w h := by
  have hwQ : (0 : ℚ) < (w : ℚ) := by exact_mod_cast hw
  have hhQ : (0 : ℚ) < (h : ℚ) := by exact_mod_cast hh
  have hscale_w : (1200 : ℚ) / w ≤ linkedinScale w h := le_max_left _ _
  have hscale_h : (627 : ℚ) / h ≤ linkedinScale w h := le_max_right _ _
  have hscale_nonneg : 0 ≤ linkedinScale w h :=
    le_trans (le_of_lt (div_pos (by norm_num) hwQ)) hscale_w
  have hwmul : (1200 : ℚ) ≤ (w : ℚ) * linkedinScale w h := by
    have h1 : (w : ℚ) * ((1200 : ℚ) / w) ≤ (w : ℚ) * linkedinScale w h :=
      mul_le_mul_of_nonneg_left hscale_w (le_of_lt hwQ)
    have h2 : (w : ℚ) * ((1200 : ℚ) / w) = 1200 := by
      field_simp
    linarith
  have hhmul : (627 : ℚ) ≤ (h : ℚ) * linkedinScale w h := by
    have h1 : (h : ℚ) * ((627 : ℚ) / h) ≤ (h : ℚ) * linkedinScale w h :=
      mul_le_mul_of_nonneg_left hscale_h (le_of_lt hhQ)
    have h2 : (h : ℚ) * ((627 : ℚ) / h) = 627 := by
      field_simp
    linarith
  constructor
  · rw [resizedWidth, pyInt_of_nonneg _ (by linarith)]
    exact Int.le_floor.2 (by exact_mod_cast hwmul)
  · rw [resizedHeight, pyInt_of_nonneg _ (by linarith)]
    exact Int.le_floor.2 (by exact_mod_cast hhmul)

theorem resized_covers_canvas_witness :
    0 < 4000 ∧ 0 < 100 ∧
      (1200 ≤ resizedWidth 4000 100 ∧ 627 ≤ resizedHeight 4000 100) :=
  ⟨by decide, by decide, resized_covers_canvas 4000 100 (by decide) (by decide)⟩

/-- C5: for every base image and valid logo, the Logo Compositor box has
width `int(0.15 * base_width)` and its origin sits at the requested
corner with a 40-pixel inset from the relevant edges. -/
theorem add_logo_box_shape (bw bh lw lh : ℕ) (hlw : 0 < lw) (pos : Corner) :
    (add_logo_to_image bw bh lw lh pos).2.2.1 = pyInt ((15 / 100 : ℚ) * bw) ∧
    (match pos with
     | Corner.bottom_left =>
         (add_logo_to_image bw bh lw lh pos).1 = 40 ∧
         (add_logo_to_image bw bh lw lh pos).2.1 =
           (bh : ℤ) - (add_logo_to_image bw bh lw lh pos).2.2.2 - 40
     | Corner.bottom_right =>
         (add_logo_to_image bw bh lw lh pos).1 =
           (bw : ℤ) - (add_logo_to_image bw bh lw lh pos).2.2.1 - 40 ∧
         (add_logo_to_image bw bh lw lh pos).2.1 =
           (bh : ℤ) - (add_logo_to_image bw bh lw lh pos).2.2.2 - 40
     | Corner.top_left =>
         (add_logo_to_image bw bh lw lh pos).1 = 40 ∧
         (add_logo_to_image bw bh lw lh pos).2.1 = 40
     | Corner.top_right =>
         (add_logo_to_image bw bh lw lh pos).1 =
           (bw : ℤ) - (add_logo_to_image bw bh lw lh pos).2.2.1 - 40 ∧
         (add_logo_to_image bw bh lw lh pos).2.1 = 40) := by
  have hcomm : (bw : ℚ) * (15 / 100) = (15 / 100 : ℚ) * bw := mul_comm _ _
  cases pos <;>
    refine ⟨by rw [add_logo_to_image, logoWidth, hcomm], ?_⟩ <;>
    simp [add_logo_to_image]

theorem add_logo_box_shape_witness :
    0 < 400 ∧
      ((add_logo_to_image 2000 1500 400 400 Corner.bottom_left).2.2.1 =
          pyInt ((15 / 100 : ℚ) * 2000) ∧
       (add_logo_to_image 2000 1500 400 400 Corner.bottom_left).1 = 40 ∧
       (add_logo_to_image 2000 1500 400 400 Corner.bottom_left).2.1 =
         (1500 : ℤ) - (add_logo_to_image 2000 1500 400 400 Corner.bottom_left).2.2.2 - 40) :=
  ⟨by decide, add_logo_box_shape 2000 1500 400 400 (by decide) Corner.bottom_left⟩

/-- C3 counterexample: with position mode `below_logo` and no logo box,
the caption left edge is `width // 2`, not the centered
`(width - text_width) // 2` that the claim asserts (image 1000 by 600,
measured text width 400: the code yields 500, the claim demands 300). -/
theorem below_logo_no_box_not_centered :
    ¬ ((add_text_to_image 1000 600 400 TextPos.below_logo none).1 =
        Int.fdiv ((1000 : ℤ) - 400) 2) := by decide

/-- C3 amended: in `center_bottom` mode (with or without a logo box) the
caption anchor is `((width - text_width) // 2, height - 120)`; but in
`below_logo` mode with no logo box supplied the anchor is
`(width // 2, height - 120)` — the left edge sits at the horizontal
midpoint and is not re-centered by the measured text width. -/
theorem caption_center_bottom_and_no_box (width height textWidth : ℕ)
    (logoInfo : Option (ℤ × ℤ × ℤ × ℤ)) :
    add_text_to_image width height textWidth TextPos.center_bottom logoInfo =
      (Int.fdiv ((width : ℤ) - textWidth) 2, (height : ℤ) - 120) ∧
    add_text_to_image width height textWidth TextPos.below_logo none =
      (Int.fdiv (width : ℤ) 2, (height : ℤ) - 120) := by
  constructor
  · cases logoInfo <;> rfl
  · rfl

/-- C6: in `below_logo` mode with a logo box `(x, y, w, h)` the caption
top is `y + h + 30`; the left edge is `x`, unless `x` plus the measured
text width would pass `width - 40`, in which case it is re-centered to
`(width - text_width) // 2`.  The embedding is a total function, so no
error is possible. -/
theorem caption_below_logo_box (width height textWidth : ℕ) (x y lw lh : ℤ) :
    (add_text_to_image width height textWidth TextPos.below_logo
        (some (x, y, lw, lh))).2 = y + lh + 30 ∧
    (x + textWidth > (width : ℤ) - 40 →
      (add_text_to_image width height textWidth TextPos.below_logo
          (some (x, y, lw, lh))).1 = Int.fdiv ((width : ℤ) - textWidth) 2) ∧
    (¬ (x + textWidth > (width : ℤ) - 40) →
      (add_text_to_image width height textWidth TextPos.below_logo
          (some (x, y, lw, lh))).1 = x) := by
  refine ⟨rfl, ?_, ?_⟩
  · intro hov
    simp only [add_text_to_image]
    rw [if_pos hov]
  · intro hov
    simp only [add_text_to_image]
    rw [if_neg hov]

theorem caption_below_logo_box_witness :
    ((40 : ℤ) + 1150 > (1200 : ℤ) - 40 ∧
      (add_text_to_image 1200 627 1150 TextPos.below_logo
          (some (40, 400, 180, 90))).1 = Int.fdiv ((1200 : ℤ) - 1150) 2) ∧
    (add_text_to_image 1200 627 1150 TextPos.below_logo
        (some (40, 400, 180, 90))).2 = 400 + 90 + 30 :=
  ⟨⟨by decide,
    (caption_below_logo_box 1200 627 1150 40 400 180 90).2.1 (by decide)⟩,
   (caption_below_logo_box 1200 627 1150 40 400 180 90).1⟩

/-! ### Text Eraser (`remove_text_from_image`, lines 76-148)

An image is a pixel grid of RGB triples.  `numpy` channel means of
non-negative integer pixels followed by `int(...)` are modelled as
natural-number division of the channel sum by the sample count, and the
float ratios `0.12` and the interpolation weights `i / tah` are
modelled as exact rationals, which for these expressions reduces to the
integer formulas below. -/

/-- An RGB pixel value. -/
abbrev RGB := ℕ × ℕ × ℕ

/-- An RGB image: dimensions plus a pixel grid (row first, as in
`img_array[y, x]`). -/
structure Img where
  width : ℕ
  height : ℕ
  pix : ℕ → ℕ → RGB

/-- `text_area_height = int(height * 0.12)` (line 89). -/
def textAreaHeight (h : ℕ) : ℕ := 12 * h / 100

/-- `text_area_y_start = height - text_area_height - 30` (line 90),
which can be negative for short images. -/
def textAreaYStart (h : ℕ) : ℤ := (h : ℤ) - (textAreaHeight h : ℤ) - 30

/-- Resolution of one Python/numpy slice index against axis length `n`:
negative indices count from the end, and both ends clamp to `[0, n]`. -/
def pySliceIdx (i : ℤ) (n : ℕ) : ℕ :=
  if i < 0 then (i + n).toNat else min i.toNat n

/-- The list of axis indices selected by the slice `i : j` on an axis of
length `n`. -/
def pySliceList (i j : ℤ) (n : ℕ) : List ℕ :=
  List.range' (pySliceIdx i n) (pySliceIdx j n - pySliceIdx i n)

/-- The pixels of a rectangular sub-array of the image, flattened as by
`reshape(-1, 3)`. -/
def regionPixels (img : Img) (rows cols : List ℕ) : List RGB :=
  (rows.map (fun y => cols.map (fun x => img.pix y x))).join

/-- The per-channel integer mean of a pixel list: `numpy` mean followed
by `int(...)` on non-negative integers. -/
def meanColor (l : List RGB) : RGB :=
  ((l.map (fun p => p.1)).sum / l.length,
   (l.map (fun p => p.2.1)).sum / l.length,
   (l.map (fun p => p.2.2)).sum / l.length)

/-- A mean over an empty pixel list is `numpy` NaN and `int(NaN)`
raises, so the whole eraser call fails: modelled as `none`. -/
def meanColor? (l : List RGB) : Option RGB :=
  if l.isEmpty then none else some (meanColor l)

/-- `avg_color` (lines 94-112): average of the sample regions above and
beside the band when at least one region was collected, otherwise the
average of the top quarter of the image. -/
def avgColor (img : Img) : Option RGB :=
  let start := textAreaYStart img.height
  let w := img.width
  let regions : List (List RGB) :=
    (if 50 < start then
      [regionPixels img
        (pySliceList (max 0 (start - 100)) start img.height)
        (List.range w)]
     else []) ++
    (if 0 < start then
      [regionPixels img
        (pySliceList (max 0 (start - 50)) start img.height)
        (pySliceList 0 ((w / 4 : ℕ) : ℤ) w),
       regionPixels img
        (pySliceList (max 0 (start - 50)) start img.height)
        (pySliceList (-((w / 4 : ℕ) : ℤ)) w w)]
     else [])
  if regions.isEmpty then
    meanColor? (regionPixels img (List.range (img.height / 4)) (List.range w))
  else
    meanColor? regions.join

/-- `blend_samples` (lines 128-133): the pixels at horizontal offsets
`w/4, w/2, 3w/4` and vertical offsets `-20, -15, -10, -5` relative to
the band start, filtered by the bounds check of line 132. -/
def blendSamples (img : Img) : List RGB :=
  (([img.width / 4, img.width / 2, 3 * img.width / 4]).map (fun xo =>
    (([-20, -15, -10, -5] : List ℤ).filterMap (fun yo =>
      if 0 ≤ textAreaYStart img.height + yo ∧
          textAreaYStart img.height + yo < (img.height : ℤ) ∧
          xo < img.width then
        some (img.pix (textAreaYStart img.height + yo).toNat xo)
      else none)))).join

/-- `blend_color` (line 136), when at least one blend sample exists. -/
def blendColor (img : Img) : Option RGB := meanColor? (blendSamples img)

/-- The fill color of gradient strip `i` (lines 139-143):
`int(avg * (1 - i/tah) + blend * (i/tah))` per channel, computed with
exact rational weights. -/
def blendedColor (avg blend : RGB) (i tah : ℕ) : RGB :=
  ((avg.1 * (tah - i) + blend.1 * i) / tah,
   (avg.2.1 * (tah - i) + blend.2.1 * i) / tah,
   (avg.2.2 * (tah - i) + blend.2.2 * i) / tah)

/-- The pixel grid after the drawing passes of `remove_text_from_image`:
the full-band rectangle fill of line 122, then, when the band start
exceeds 20 and blend samples exist, the one-pixel-tall gradient strips
of lines 138-146.  Strip `i` covers rows `start + i` and `start + i + 1`
(PIL rectangles include both corners), so the last strip drawn over a
row `y` of the band is strip `min (y - start) (tah - 1)`. -/
def erasedPix (img : Img) (avg : RGB) (y x : ℕ) : RGB :=
  if y < img.height ∧ x < img.width ∧ textAreaYStart img.height ≤ (y : ℤ) then
    (if 20 < textAreaYStart img.height then blendColor img else none).elim avg
      (fun blend =>
        if (y : ℤ) ≤ textAreaYStart img.height + (textAreaHeight img.height : ℤ) ∧
            0 < textAreaHeight img.height then
          blendedColor avg blend
            (min ((y : ℤ) - textAreaYStart img.height).toNat
              (textAreaHeight img.height - 1))
            (textAreaHeight img.height)
        else avg)
  else img.pix y x

/-- The image returned by the eraser for a given average color. -/
def eraseApplied (img : Img) (avg : RGB) : Img :=
  { width := img.width, height := img.height, pix := erasedPix img avg }

/-- `remove_text_from_image` (lines 76-148): `none` models the uncaught
`int(NaN)` failure when every sample region is empty. -/
def remove_text_from_image (img : Img) : Option Img :=
  (avgColor img).map (eraseApplied img)

/-- The concrete 4 by 57 image used to exercise the eraser: white
pixels in columns 1..3 of rows 1, 6, 11 and 16, black elsewhere.  Its
band starts at row 21 with height 6, its average color is
`(24, 24, 24)` and its blend color is `(255, 255, 255)`. -/
def eraserImgA : Img :=
  { width := 4, height := 57,
    pix := fun y x =>
      if (y = 1 ∨ y = 6 ∨ y = 11 ∨ y = 16) ∧ 1 ≤ x then (255, 255, 255)
      else (0, 0, 0) }

/-- The eraser output on `eraserImgA` (the call succeeds). -/
def eraserOutA : Img := (remove_text_from_image eraserImgA).getD eraserImgA

/-- C7 counterexample: on `eraserImgA` the blend color is
`(255, 255, 255)`, the band is rows 21-26, yet the bottom row of the
band is painted `(216, 216, 216)` — the interpolation weight of the
last strip is `5/6`, not `1`, so the bottom of the band does not carry
the blend color. -/
theorem erase_bottom_band_not_blend :
    textAreaYStart 57 = 21 ∧ textAreaHeight 57 = 6 ∧
    remove_text_from_image eraserImgA = some eraserOutA ∧
    blendColor eraserImgA = some (255, 255, 255) ∧
    eraserOutA.pix 26 0 ≠ (255, 255, 255) :=
  ⟨by decide, by decide, rfl, by decide, by decide⟩

/-- C7 amended: when the band start exceeds 20 and the eraser succeeds
with average color `avg` and blend color `blend`, every band row
`start + i` (`i < tah`) is painted the per-channel interpolation with
exact weight `i / tah`, so the top row carries `avg` exactly and the
bottom row carries weight `(tah - 1) / tah` — close to, but not equal
to, the blend color. -/
theorem remove_text_band_interp (img out : Img)
    (hrun : 20 < textAreaYStart img.height)
    (hsome : remove_text_from_image img = some out)
    (avg blend : RGB)
    (ha : avgColor img = some avg)
    (hb : blendColor img = some blend)
    (i : ℕ) (hi : i < textAreaHeight img.height)
    (x : ℕ) (hx : x < img.width) :
    out.pix ((textAreaYStart img.height).toNat + i) x =
      blendedColor avg blend i (textAreaHeight img.height) := by
  have hout : out = eraseApplied img avg := by
    rw [remove_text_from_image, ha] at hsome
    exact (Option.some.inj hsome).symm
  subst hout
  have hs : textAreaYStart img.height =
      (img.height : ℤ) - (textAreaHeight img.height : ℤ) - 30 := rfl
  have hyH : (textAreaYStart img.height).toNat + i < img.height := by omega
  have hyge : textAreaYStart img.height ≤
      (((textAreaYStart img.height).toNat + i : ℕ) : ℤ) := by omega
  have hyle : (((textAreaYStart img.height).toNat + i : ℕ) : ℤ) ≤
      textAreaYStart img.height + (textAreaHeight img.height : ℤ) := by omega
  show erasedPix img avg ((textAreaYStart img.height).toNat + i) x = _
  unfold erasedPix
  rw [if_pos ⟨hyH, hx, hyge⟩, if_pos hrun, hb]
  simp only [Option.elim]
  rw [if_pos ⟨hyle, by omega⟩]
  have hmin : min (((((textAreaYStart img.height).toNat + i : ℕ) : ℤ) -
      textAreaYStart img.height).toNat) (textAreaHeight img.height - 1) = i := by
    omega
  rw [hmin]

theorem remove_text_band_interp_witness :
    eraserOutA.pix 26 0 = blendedColor (24, 24, 24) (255, 255, 255) 5 6 :=
  remove_text_band_interp eraserImgA eraserOutA (by decide) rfl
    (24, 24, 24) (255, 255, 255) (by decide) (by decide) 5 (by decide) 0 (by decide)

/-- C9: whenever the eraser returns an image, every pixel strictly
above the band start row is unchanged; only the bottom band region is
overwritten. -/
theorem remove_text_above_band_unchanged (img out : Img)
    (hsome : remove_text_from_image img = some out)
    (y x : ℕ) (hy : (y : ℤ) < textAreaYStart img.height) :
    out.pix y x = img.pix y x := by
  rw [remove_text_from_image] at hsome
  cases ha : avgColor img with
  | none => rw [ha] at hsome; simp at hsome
  | some avg =>
      rw [ha] at hsome
      have hout : out = eraseApplied img avg := (Option.some.inj hsome).symm
      subst hout
      show erasedPix img avg y x = img.pix y x
      unfold erasedPix
      have hnc : ¬ (y < img.height ∧ x < img.width ∧
          textAreaYStart img.height ≤ (y : ℤ)) :=
        fun hc => absurd hc.2.2 (not_le.2 hy)
      rw [if_neg hnc]

/-- The constant black 3 by 60 image used as the eraser frame-effect
witness input; its band starts at row 23. -/
def eraserImgB : Img := { width := 3, height := 60, pix := fun _ _ => (0, 0, 0) }

/-- The eraser output on `eraserImgB`. -/
def eraserOutB : Img := (remove_text_from_image eraserImgB).getD eraserImgB

theorem remove_text_above_band_unchanged_witness :
    eraserOutB.pix 5 1 = eraserImgB.pix 5 1 :=
  remove_text_above_band_unchanged eraserImgB eraserOutB rfl 5 1 (by decide)

/-! ### File Locator (`find_image_files`, lines 16-74)

The directory walk is modelled by its outcome: the list of visited
files in walk order, each with full path, bare filename and byte size
(`os.path.getsize` is modelled as total). -/

/-- A file met during the walk. -/
structure FileEntry where
  path : String
  name : String
  size : ℕ
  deriving DecidableEq

/-- `filename.lower()`, on the character list of the name (the names in
scope are ASCII, where Python and Lean lowercasing agree). -/
def lowerChars (s : String) : List Char := s.toList.map Char.toLower

/-- Substring containment, as Python `in` on strings. -/
def containsSub (s pat : List Char) : Bool :=
  s.tails.any (fun t => pat.isPrefixOf t)

/-- The extension list of line 18, already lowercased (the code lowers
both the name and the extension before comparing, so the uppercase
duplicates of the list are redundant). -/
def imageExts : List (List Char) :=
  [(".jpg").toList, (".jpeg").toList, (".png").toList, (".gif").toList,
   (".webp").toList]

/-- The per-file filter of lines 29-32: skip hidden files, scripts and
markup, keep files with a known image extension (case-insensitive). -/
def isImageFile (name : String) : Bool :=
  !(("." ).toList.isPrefixOf name.toList) &&
    !((".py").toList.isSuffixOf name.toList) &&
    !((".html").toList.isSuffixOf name.toList) &&
    imageExts.any (fun ext => ext.isSuffixOf (lowerChars name))

/-- The Christmas-name test of line 38. -/
def christmasPattern (f : FileEntry) : Bool :=
  containsSub (lowerChars f.name) (("christmas").toList) &&
    !(containsSub (lowerChars f.name) (("logo").toList))

/-- The logo-name test of line 42. -/
def logoPattern (f : FileEntry) : Bool :=
  containsSub (lowerChars f.name) (("logo").toList) ||
    containsSub (lowerChars f.name) (("nimex").toList)

/-- One step of the classification loop of lines 27-43: first matching
Christmas name wins, and only a file that is not Christmas-named may
claim the logo role (the branch is an elif). -/
def locateStep (acc : Option String × Option String) (f : FileEntry) :
    Option String × Option String :=
  if isImageFile f.name then
    if christmasPattern f then
      match acc.1 with
      | none => (some f.path, acc.2)
      | some _ => acc
    else if logoPattern f && acc.2.isNone then
      (acc.1, some f.path)
    else acc
  else acc

/-- The name-based classification pass over the walked files. -/
def classify (files : List FileEntry) : Option String × Option String :=
  files.foldl locateStep (none, none)

/-- One step of picking the maximum of `(size, filepath)` in the
lexicographic order used by `image_sizes.sort(reverse=True)` followed
by `[0]` (lines 50-59). -/
def betterEntry (best g : FileEntry) : FileEntry :=
  if best.size < g.size ∨ (best.size = g.size ∧ best.path < g.path) then g else best

/-- The lexicographic maximum of `f :: l`. -/
def maxEntry (f : FileEntry) (l : List FileEntry) : FileEntry :=
  l.foldl betterEntry f

/-- The largest-by-size fallback of lines 48-59. -/
def largestImage (cands : List FileEntry) : Option String :=
  match cands with
  | [] => none
  | f :: rest => some (maxEntry f rest).path

/-- `find_image_files` (lines 16-74): classify by name, then fall back
to the largest image for the Christmas role and to the first other
image under 5 MiB for the logo role (lines 61-72). -/
def find_image_files (files : List FileEntry) : Option String × Option String :=
  let c := classify files
  let cands := files.filter (fun f => isImageFile f.name)
  let christmas : Option String :=
    match c.1 with
    | some p => some p
    | none => largestImage cands
  let logo : Option String :=
    match c.2 with
    | some p => some p
    | none =>
        (cands.find? (fun f =>
          !(christmas == some f.path) && decide (f.size < 5 * 1024 * 1024))).map
          FileEntry.path
  (christmas, logo)

theorem betterEntry_or (best g : FileEntry) :
    betterEntry best g = best ∨ betterEntry best g = g := by
  unfold betterEntry
  split
  · exact Or.inr rfl
  · exact Or.inl rfl

theorem size_le_betterEntry_left (best g : FileEntry) :
    best.size ≤ (betterEntry best g).size := by
  unfold betterEntry
  split
  · next h =>
      rcases h with h | ⟨h, _⟩
      · exact le_of_lt h
      · exact le_of_eq h
  · exact le_rfl

theorem size_le_betterEntry_right (best g : FileEntry) :
    g.size ≤ (betterEntry best g).size := by
  unfold betterEntry
  split
  · exact le_rfl
  · next h =>
      push_neg at h
      exact h.1

theorem maxEntry_mem (f : FileEntry) (l : List FileEntry) :
    maxEntry f l = f ∨ maxEntry f l ∈ l := by
  induction l generalizing f with
  | nil => exact Or.inl rfl
  | cons g t ih =>
      have step : maxEntry f (g :: t) = maxEntry (betterEntry f g) t := rfl
      rw [step]
      rcases ih (betterEntry f g) with h | h
      · rcases betterEntry_or f g with hb | hb
        · exact Or.inl (h.trans hb)
        · exact Or.inr (by rw [h, hb]; exact List.mem_cons_self _ _)
      · exact Or.inr (List.mem_cons_of_mem _ h)

theorem le_size_maxEntry (f : FileEntry) (l : List FileEntry) :
    f.size ≤ (maxEntry f l).size ∧
      ∀ g ∈ l, g.size ≤ (maxEntry f l).size := by
  induction l generalizing f with
  | nil => exact ⟨le_rfl, fun g hg => absurd hg (List.not_mem_nil g)⟩
  | cons g t ih =>
      have step : maxEntry f (g :: t) = maxEntry (betterEntry f g) t := rfl
      rw [step]
      refine ⟨le_trans (size_le_betterEntry_left f g) (ih (betterEntry f g)).1, ?_⟩
      intro e he
      rcases List.mem_cons.1 he with rfl | he
      · exact le_trans (size_le_betterEntry_right f e) (ih (betterEntry f e)).1
      · exact (ih (betterEntry f g)).2 e he

theorem classify_fst_none (l : List FileEntry) (acc : Option String × Option String)
    (hno : ∀ f ∈ l, isImageFile f.name = true → christmasPattern f = false) :
    (l.foldl locateStep acc).1 = acc.1 := by
  induction l generalizing acc with
  | nil => rfl
  | cons f t ih =>
      have hstep : (locateStep acc f).1 = acc.1 := by
        unfold locateStep
        split
        · next himg =>
            rw [hno f (List.mem_cons_self _ _) himg]
            simp only [Bool.false_eq_true, if_false]
            split
            · rfl
            · rfl
        · rfl
      have ht : ∀ f ∈ t, isImageFile f.name = true → christmasPattern f = false :=
        fun g hg => hno g (List.mem_cons_of_mem _ hg)
      calc (List.foldl locateStep (locateStep acc f) t).1
          = (locateStep acc f).1 := ih (locateStep acc f) ht
        _ = acc.1 := hstep

/-- C8: when the walk finds at least one candidate image but none whose
lowercased name contains `christmas` without `logo`, the Christmas role
is assigned to a candidate of maximal byte size. -/
theorem find_image_files_largest (files : List FileEntry)
    (hne : files.filter (fun f => isImageFile f.name) ≠ [])
    (hno : ∀ f ∈ files, isImageFile f.name = true → christmasPattern f = false) :
    ∃ f, f ∈ files.filter (fun f => isImageFile f.name) ∧
      (find_image_files files).1 = some f.path ∧
      ∀ g ∈ files.filter (fun f => isImageFile f.name), g.size ≤ f.size := by
  have hc1 : (classify files).1 = none := classify_fst_none files (none, none) hno
  obtain ⟨f0, t, hcands⟩ := List.exists_cons_of_ne_nil hne
  refine ⟨maxEntry f0 t, ?_, ?_, ?_⟩
  · rw [hcands]
    rcases maxEntry_mem f0 t with h | h
    · rw [h]; exact List.mem_cons_self _ _
    · exact List.mem_cons_of_mem _ h
  · show (find_image_files files).1 = _
    unfold find_image_files
    simp only [hc1, hcands, largestImage]
  · intro g hg
    rw [hcands] at hg
    rcases List.mem_cons.1 hg with rfl | hg
    · exact (le_size_maxEntry g t).1
    · exact (le_size_maxEntry f0 t).2 g hg

/-- The walked files used as the C8 witness: two candidate images,
neither Christmas-named, the second larger. -/
def walkA : List FileEntry :=
  [{ path := ("/workspace/a.png"), name := ("a.png"), size := 10 },
   { path := ("/workspace/b.png"), name := ("b.png"), size := 50 }]

theorem find_image_files_largest_witness :
    ∃ f, f ∈ walkA.filter (fun f => isImageFile f.name) ∧
      (find_image_files walkA).1 = some f.path ∧
      ∀ g ∈ walkA.filter (fun f => isImageFile f.name), g.size ≤ f.size :=
  find_image_files_largest walkA (by decide) (by decide)

/-- The walked files used for C10: a single image whose name contains
`nimex` and not `christmas`. -/
def walkB : List FileEntry :=
  [{ path := ("/workspace/nimex.png"), name := ("nimex.png"), size := 1000 }]

/-- C10: on a directory whose only image is `nimex.png`, the Locator
assigns the same path to both the Christmas role and the logo role —
the two roles are not guaranteed distinct. -/
theorem find_image_files_roles_collide :
    (find_image_files walkB).1 = some ("/workspace/nimex.png") ∧
    (find_image_files walkB).2 = some ("/workspace/nimex.png") := by decide

/-! ### CLI logo override (`main`, lines 282-298 and 334-337) -/

/-- The logo path the pipeline actually uses, as computed by `main`:
`find_image_files` runs first (line 283); an explicit `--logo` that
exists overwrites the entry (line 295), while a missing explicit
`--logo` only prints a warning and leaves the discovered entry in place
(lines 296-298).  The logo is composited iff the resulting entry is
non-empty (line 335). -/
def resolveLogoPath (discovered cli : Option String)
    (pathOnDisk : String → Bool) : Option String :=
  match cli with
  | none => discovered
  | some p => if pathOnDisk p then some p else discovered

/-- C2 failing input: `--logo /workspace/missing.png` does not exist,
yet the walk discovered `/workspace/nimex.png`, so the pipeline keeps
the discovered logo and composites it — despite printing
`Continuing without logo...`. -/
theorem missing_cli_logo_still_composited :
    resolveLogoPath (some ("/workspace/nimex.png")) (some ("/workspace/missing.png"))
        (fun p => p == ("/workspace/nimex.png")) =
      some ("/workspace/nimex.png") := by decide
